import Mathlib

/-!
Shallow embedding of the NEORV32 TRNG hardware driver
(src/sw/lib/source/neorv32_trng.c) in Lean 4.

The driver is straight-line C code over a single memory-mapped 32-bit
control/status register (NEORV32_TRNG.CTRL) plus one read-only system
capability register (NEORV32_SYSINFO.SOC).  Each C function is embedded
as a pure Lean function of the register value(s) it reads; its return
value, the new register / output-location contents, and the exact
sequence of hardware accesses it performs (register reads, register
writes, and the nop iterations of the two busy-wait delay loops) are
returned explicitly.  Register values are natural numbers; the values
the driver itself writes are all below 2^32, and bit tests use
Nat.testBit.
-/

/-- Hardware access event: a read of the TRNG control register
(returning value v), a write of value v to the TRNG control register, a
read of the SYSINFO SOC capability register (returning value v), or one
iteration of a busy-wait delay loop (one volatile nop instruction). -/
inductive Access where
  | readCtrl (v : Nat)
  | writeCtrl (v : Nat)
  | readSoc (v : Nat)
  | nop
  deriving Repr, DecidableEq

/-- Modelled from the spec: the headers neorv32.h / neorv32_trng.h that
define the control-register bit positions are not part of the driver
source file.  The spec fixes the layout: DATA is an 8-bit field at a
fixed offset, and ENABLE, FIFO_CLEAR, SIM_MODE, VALID are individual
(distinct) single-bit flags.  We place DATA at bits 0..7 and the four
flags, in the spec's least-to-most-significant order, at bits 28..31.
No claim depends on the particular numeric positions, only on the flag
bits being distinct and DATA being 8 bits wide. -/
def TRNG_CTRL_DATA_LSB : Nat := 0

/-- Modelled from the spec: position of the ENABLE flag. -/
def TRNG_CTRL_EN : Nat := 28

/-- Modelled from the spec: position of the FIFO_CLEAR flag. -/
def TRNG_CTRL_FIFO_CLR : Nat := 29

/-- Modelled from the spec: position of the SIM_MODE flag. -/
def TRNG_CTRL_SIM_MODE : Nat := 30

/-- Modelled from the spec: position of the VALID flag. -/
def TRNG_CTRL_VALID : Nat := 31

/-- Modelled from the spec: the bit of the SYSINFO SOC capability
register that indicates that the TRNG peripheral was synthesized.  The
spec only says it is one specific bit of that register; its numeric
value is immaterial to every claim. -/
def SYSINFO_SOC_IO_TRNG : Nat := 19

/-- Embedding of the C busy-wait loop
for (i=0; i&lt;256; i++) asm volatile ("nop");
as the list of its nop iterations: nop_delay n is n nop events. -/
def nop_delay : Nat → List Access
  | 0 => []
  | n + 1 => Access.nop :: nop_delay n

/-- Embedding of int neorv32_trng_available(void).
Reads NEORV32_SYSINFO.SOC (value soc) and returns 1 if the
SYSINFO_SOC_IO_TRNG bit is set, else 0.  Result: (return value, access
trace). -/
def neorv32_trng_available (soc : Nat) : Int × List Access :=
  (if soc &&& (1 <<< SYSINFO_SOC_IO_TRNG) ≠ 0 then 1 else 0,
   [Access.readSoc soc])

/-- Embedding of void neorv32_trng_fifo_clear(void).
NEORV32_TRNG.CTRL |= 1 &lt;&lt; TRNG_CTRL_FIFO_CLR is a read-modify-write:
read the control register (value ctrl), OR in the FIFO_CLR bit, write
it back.  Result: (new control-register value, access trace). -/
def neorv32_trng_fifo_clear (ctrl : Nat) : Nat × List Access :=
  (ctrl ||| (1 <<< TRNG_CTRL_FIFO_CLR),
   [Access.readCtrl ctrl, Access.writeCtrl (ctrl ||| (1 <<< TRNG_CTRL_FIFO_CLR))])

/-- Embedding of void neorv32_trng_enable(void).
Writes 0 to the control register, busy-waits 256 iterations, writes
1 &lt;&lt; TRNG_CTRL_EN, busy-waits 256 iterations, then calls
neorv32_trng_fifo_clear (whose read sees the just-written value).  The
initial control-register value ctrl is overwritten by the first store
and never read.  Result: (new control-register value, access trace). -/
def neorv32_trng_enable (_ctrl : Nat) : Nat × List Access :=
  let activated := 1 <<< TRNG_CTRL_EN
  let cleared := neorv32_trng_fifo_clear activated
  (cleared.1,
   Access.writeCtrl 0 :: nop_delay 256 ++
     Access.writeCtrl activated :: nop_delay 256 ++ cleared.2)

/-- Embedding of void neorv32_trng_disable(void).
A single write of 0 to the control register; the previous value is
never read.  Result: (new control-register value, access trace). -/
def neorv32_trng_disable (_ctrl : Nat) : Nat × List Access :=
  (0, [Access.writeCtrl 0])

/-- Embedding of int neorv32_trng_get(uint8_t *data).
Reads the control register once into ct_reg.  If the VALID bit is set,
stores the uint8_t truncation of ct_reg >> TRNG_CTRL_DATA_LSB to *data
and returns 0; otherwise returns -1 and leaves *data untouched.  The
argument data is the byte at the caller-supplied output location before
the call.  Result: (return value, contents of the output location after
the call, access trace). -/
def neorv32_trng_get (ctrl : Nat) (data : Nat) : Int × Nat × List Access :=
  let ct_reg := ctrl
  if ct_reg &&& (1 <<< TRNG_CTRL_VALID) ≠ 0 then
    (0, (ct_reg >>> TRNG_CTRL_DATA_LSB) % 256, [Access.readCtrl ctrl])
  else
    (-1, data, [Access.readCtrl ctrl])

/-- Embedding of int neorv32_trng_check_sim_mode(void).
Reads the control register once and returns -1 if the SIM_MODE bit is
set, else 0.  Result: (return value, access trace). -/
def neorv32_trng_check_sim_mode (ctrl : Nat) : Int × List Access :=
  (if ctrl &&& (1 <<< TRNG_CTRL_SIM_MODE) ≠ 0 then -1 else 0,
   [Access.readCtrl ctrl])

/-- The 8-bit DATA field of a control-register value, as the spec
describes it: the 8 bits starting at TRNG_CTRL_DATA_LSB. -/
def dataField (ctrl : Nat) : Nat :=
  (ctrl >>> TRNG_CTRL_DATA_LSB) % 2 ^ 8

/-- Bit-mask test against a single bit position agrees with
Nat.testBit. -/
lemma and_one_shiftLeft_ne_zero (n k : Nat) :
    (n &&& (1 <<< k) ≠ 0) ↔ n.testBit k := by
  rw [Nat.one_shiftLeft, Nat.and_two_pow]
  rcases h : n.testBit k with _ | _ <;>
    simp [h, Nat.pos_iff_ne_zero.symm, Nat.pos_pow_of_pos]

/-- nop_delay n consists of exactly n events, every one of them a nop. -/
lemma nop_delay_spec (n : Nat) :
    (nop_delay n).length = n ∧ ∀ e ∈ nop_delay n, e = Access.nop := by
  induction n with
  | zero => simp [nop_delay]
  | succ m ih => simpa [nop_delay] using ih

/-- C1: for every control-register state, neorv32_trng_get succeeds
(returns 0) if and only if the VALID bit of the value it reads is set,
and on success the byte stored to the caller-supplied output location
equals exactly the 8-bit DATA field of that same register read. -/
theorem C1_get_valid_iff (ctrl data : Nat) :
    ((neorv32_trng_get ctrl data).1 = 0 ↔ ctrl.testBit TRNG_CTRL_VALID) ∧
    (ctrl.testBit TRNG_CTRL_VALID →
      (neorv32_trng_get ctrl data).2.1 = dataField ctrl) := by
  have hb := and_one_shiftLeft_ne_zero ctrl TRNG_CTRL_VALID
  by_cases h : ctrl &&& (1 <<< TRNG_CTRL_VALID) ≠ 0
  · simp [neorv32_trng_get, h, hb.mp h, dataField]
  · have hnot : ¬ ctrl.testBit TRNG_CTRL_VALID := fun hc => h (hb.mpr hc)
    simp [neorv32_trng_get, h, hnot]

/-- C1 witness: at control value 2^31 + 0x5A (VALID set, DATA = 0x5A)
the call succeeds and the stored byte is the DATA field. -/
theorem C1_get_valid_iff_witness :
    (2147483738 : Nat).testBit TRNG_CTRL_VALID ∧
    (neorv32_trng_get 2147483738 7).1 = 0 ∧
    (neorv32_trng_get 2147483738 7).2.1 = dataField 2147483738 :=
  ⟨by decide, (C1_get_valid_iff 2147483738 7).1.mpr (by decide),
    (C1_get_valid_iff 2147483738 7).2 (by decide)⟩

/-- C2: when the VALID bit is clear neorv32_trng_get returns -1 and
leaves the output location unmodified; in every case its access trace
is exactly one read of the control register and nothing else (in
particular no write). -/
theorem C2_get_invalid_frame (ctrl data : Nat) :
    (¬ ctrl.testBit TRNG_CTRL_VALID →
      (neorv32_trng_get ctrl data).1 = -1 ∧
      (neorv32_trng_get ctrl data).2.1 = data) ∧
    (neorv32_trng_get ctrl data).2.2 = [Access.readCtrl ctrl] := by
  have hb := and_one_shiftLeft_ne_zero ctrl TRNG_CTRL_VALID
  by_cases h : ctrl &&& (1 <<< TRNG_CTRL_VALID) ≠ 0
  · exact ⟨fun hc => absurd (hb.mp h) hc, by simp [neorv32_trng_get, h]⟩
  · exact ⟨fun _ => by simp [neorv32_trng_get, h], by simp [neorv32_trng_get, h]⟩

/-- C2 witness: at control value 90 (VALID clear) the call fails, the
output byte 7 is untouched, and the trace is the single read. -/
theorem C2_get_invalid_frame_witness :
    ¬ (90 : Nat).testBit TRNG_CTRL_VALID ∧
    (neorv32_trng_get 90 7).1 = -1 ∧
    (neorv32_trng_get 90 7).2.1 = 7 ∧
    (neorv32_trng_get 90 7).2.2 = [Access.readCtrl 90] :=
  ⟨by decide, ((C2_get_invalid_frame 90 7).1 (by decide)).1,
    ((C2_get_invalid_frame 90 7).1 (by decide)).2,
    (C2_get_invalid_frame 90 7).2⟩

/-- C3: for every initial state, neorv32_trng_enable performs exactly,
in order: a write of all-zero, 256 delay iterations, a write whose
value has only the ENABLE bit set, 256 delay iterations again, and the
FIFO_CLEAR read-modify-write (one read seeing the just-written value,
one write of that value with FIFO_CLEAR ORed in); no other register
accesses occur. -/
theorem C3_enable_sequence (ctrl : Nat) :
    (neorv32_trng_enable ctrl).2 =
      Access.writeCtrl 0 :: nop_delay 256 ++
        Access.writeCtrl (1 <<< TRNG_CTRL_EN) :: nop_delay 256 ++
        [Access.readCtrl (1 <<< TRNG_CTRL_EN),
         Access.writeCtrl ((1 <<< TRNG_CTRL_EN) ||| (1 <<< TRNG_CTRL_FIFO_CLR))] ∧
    (∀ i : Nat, (1 <<< TRNG_CTRL_EN : Nat).testBit i = true ↔ i = TRNG_CTRL_EN) := by
  constructor
  · simp [neorv32_trng_enable, neorv32_trng_fifo_clear]
  · intro i
    rw [Nat.one_shiftLeft, Nat.testBit_two_pow]
    simp [eq_comm]

/-- C4: neorv32_trng_fifo_clear sets the FIFO_CLEAR bit and leaves
every other bit of the register, in particular ENABLE, unchanged from
its value at the time of the call. -/
theorem C4_fifo_clear_frame (ctrl : Nat) :
    (neorv32_trng_fifo_clear ctrl).1.testBit TRNG_CTRL_FIFO_CLR = true ∧
    (∀ i : Nat, i ≠ TRNG_CTRL_FIFO_CLR →
      (neorv32_trng_fifo_clear ctrl).1.testBit i = ctrl.testBit i) ∧
    (neorv32_trng_fifo_clear ctrl).1.testBit TRNG_CTRL_EN
      = ctrl.testBit TRNG_CTRL_EN := by
  have hset : ∀ i : Nat, (neorv32_trng_fifo_clear ctrl).1.testBit i
      = (ctrl.testBit i || (1 <<< TRNG_CTRL_FIFO_CLR : Nat).testBit i) := by
    intro i
    simp [neorv32_trng_fifo_clear]
  refine ⟨?_, ?_, ?_⟩
  · rw [hset, Nat.one_shiftLeft, Nat.testBit_two_pow_self, Bool.or_true]
  · intro i hi
    rw [hset, Nat.one_shiftLeft, Nat.testBit_two_pow_of_ne (Ne.symm hi), Bool.or_false]
  · rw [hset, Nat.one_shiftLeft,
      Nat.testBit_two_pow_of_ne (by decide : TRNG_CTRL_FIFO_CLR ≠ TRNG_CTRL_EN),
      Bool.or_false]

/-- C4 witness: at control value 2^28 (ENABLE set) the result has
FIFO_CLEAR set while bit 28, the ENABLE bit, keeps its value. -/
theorem C4_fifo_clear_frame_witness :
    (28 : Nat) ≠ TRNG_CTRL_FIFO_CLR ∧
    (neorv32_trng_fifo_clear 268435456).1.testBit TRNG_CTRL_FIFO_CLR = true ∧
    (neorv32_trng_fifo_clear 268435456).1.testBit 28 = (268435456 : Nat).testBit 28 :=
  ⟨by decide, (C4_fifo_clear_frame 268435456).1,
    (C4_fifo_clear_frame 268435456).2.1 28 (by decide)⟩

/-- C5: neorv32_trng_available returns 1 exactly when the TRNG
presence bit of the SYSINFO SOC register is set and 0 otherwise, and
its access trace is the single read of that register: it touches no
other register (so its result cannot depend on the TRNG control
register) and performs no write. -/
theorem C5_available (soc : Nat) :
    ((neorv32_trng_available soc).1 = 1 ↔ soc.testBit SYSINFO_SOC_IO_TRNG) ∧
    ((neorv32_trng_available soc).1 = 0 ↔ ¬ soc.testBit SYSINFO_SOC_IO_TRNG) ∧
    (neorv32_trng_available soc).2 = [Access.readSoc soc] := by
  have hb := and_one_shiftLeft_ne_zero soc SYSINFO_SOC_IO_TRNG
  by_cases h : soc &&& (1 <<< SYSINFO_SOC_IO_TRNG) ≠ 0
  · simp [neorv32_trng_available, h, hb.mp h]
  · have hnot : ¬ soc.testBit SYSINFO_SOC_IO_TRNG := fun hc => h (hb.mpr hc)
    simp [neorv32_trng_available, h, hnot]

/-- C6: neorv32_trng_check_sim_mode reports simulation mode (nonzero,
namely -1) exactly when the SIM_MODE bit is set; its result depends
only on the SIM_MODE bit of the value read, hence not on the ENABLE or
VALID bits; and its access trace is the single register read. -/
theorem C6_check_sim_mode (c c' : Nat)
    (h : c.testBit TRNG_CTRL_SIM_MODE = c'.testBit TRNG_CTRL_SIM_MODE) :
    ((neorv32_trng_check_sim_mode c).1 ≠ 0 ↔ c.testBit TRNG_CTRL_SIM_MODE) ∧
    (neorv32_trng_check_sim_mode c).1 = (neorv32_trng_check_sim_mode c').1 ∧
    (neorv32_trng_check_sim_mode c).2 = [Access.readCtrl c] := by
  have hb := and_one_shiftLeft_ne_zero c TRNG_CTRL_SIM_MODE
  have hb' := and_one_shiftLeft_ne_zero c' TRNG_CTRL_SIM_MODE
  by_cases hc : c &&& (1 <<< TRNG_CTRL_SIM_MODE) ≠ 0
  · have hc' : c' &&& (1 <<< TRNG_CTRL_SIM_MODE) ≠ 0 := by
      refine hb'.mpr ?_
      rw [← h]
      exact hb.mp hc
    simp [neorv32_trng_check_sim_mode, hc, hc', hb.mp hc]
  · have hnot : ¬ c.testBit TRNG_CTRL_SIM_MODE := fun hx => hc (hb.mpr hx)
    have hc' : ¬ c' &&& (1 <<< TRNG_CTRL_SIM_MODE) ≠ 0 := by
      intro hx
      have := hb'.mp hx
      rw [← h] at this
      exact hnot this
    simp [neorv32_trng_check_sim_mode, hc, hc', hnot]

/-- C6 witness: control values 2^30 and 2^30 + 2^28 + 2^31 agree on
the SIM_MODE bit but differ on ENABLE and VALID; both report
simulation mode, with the same return value, and the trace is the
single read. -/
theorem C6_check_sim_mode_witness :
    (1073741824 : Nat).testBit TRNG_CTRL_SIM_MODE
      = (3489660928 : Nat).testBit TRNG_CTRL_SIM_MODE ∧
    ((neorv32_trng_check_sim_mode 1073741824).1 ≠ 0 ↔
      (1073741824 : Nat).testBit TRNG_CTRL_SIM_MODE) ∧
    (neorv32_trng_check_sim_mode 1073741824).1
      = (neorv32_trng_check_sim_mode 3489660928).1 ∧
    (neorv32_trng_check_sim_mode 1073741824).2 = [Access.readCtrl 1073741824] :=
  ⟨by decide, (C6_check_sim_mode 1073741824 3489660928 (by decide)).1,
    (C6_check_sim_mode 1073741824 3489660928 (by decide)).2.1,
    (C6_check_sim_mode 1073741824 3489660928 (by decide)).2.2⟩

/-- C7: from every initial control-register state, enable followed
immediately by disable leaves the control register at zero, and
disable itself is a single write of zero with no delay iterations and
no other access. -/
theorem C7_enable_then_disable (ctrl : Nat) :
    (neorv32_trng_disable (neorv32_trng_enable ctrl).1).1 = 0 ∧
    (∀ c : Nat, (neorv32_trng_disable c).2 = [Access.writeCtrl 0]) :=
  ⟨rfl, fun _ => rfl⟩

/-- Helper: the control-register value neorv32_trng_enable leaves
behind is the ENABLE bit ORed with the FIFO_CLEAR bit, independent of
the initial state. -/
lemma enable_state (c : Nat) :
    (neorv32_trng_enable c).1
      = (1 <<< TRNG_CTRL_EN) ||| (1 <<< TRNG_CTRL_FIFO_CLR) := by
  simp [neorv32_trng_enable, neorv32_trng_fifo_clear]

/-- C8: calling neorv32_trng_enable twice in succession is idempotent
in effect: the control-register state after the second call equals the
state after a single call, for every initial state. -/
theorem C8_enable_idempotent (ctrl : Nat) :
    (neorv32_trng_enable (neorv32_trng_enable ctrl).1).1
      = (neorv32_trng_enable ctrl).1 := by
  rw [enable_state, enable_state]

/-- nop_delay n contains exactly n nop events. -/
lemma nop_delay_count (n : Nat) : (nop_delay n).count Access.nop = n := by
  induction n with
  | zero => simp [nop_delay]
  | succ m ih => simp [nop_delay, ih]

/-- C9: every operation's access trace is a concrete finite list, so
every operation terminates on every input.  The traces of available,
disable, fifo_clear, get and check_sim_mode contain no delay iteration
at all (no loops), while enable's trace contains exactly 2 * 256 delay
iterations — its two busy-wait loops of 256 iterations each (the count
is independent of every register state), and a busy-wait loop of n
iterations contributes exactly n events. -/
theorem C9_termination_bounded_loops (soc ctrl data : Nat) :
    (neorv32_trng_available soc).2.count Access.nop = 0 ∧
    (neorv32_trng_disable ctrl).2.count Access.nop = 0 ∧
    (neorv32_trng_fifo_clear ctrl).2.count Access.nop = 0 ∧
    (neorv32_trng_get ctrl data).2.2.count Access.nop = 0 ∧
    (neorv32_trng_check_sim_mode ctrl).2.count Access.nop = 0 ∧
    (neorv32_trng_enable ctrl).2.count Access.nop = 2 * 256 ∧
    (∀ n : Nat, (nop_delay n).length = n) := by
  refine ⟨?_, rfl, rfl, ?_, rfl, ?_, fun n => (nop_delay_spec n).1⟩
  · simp [neorv32_trng_available]
  · by_cases h : ctrl &&& (1 <<< TRNG_CTRL_VALID) ≠ 0 <;>
      simp [neorv32_trng_get, h]
  · simp [neorv32_trng_enable, neorv32_trng_fifo_clear, nop_delay_count]

/-- C10: return-value encodings: neorv32_trng_available returns
exactly 0 or 1, with 1 meaning the presence bit is set;
neorv32_trng_get returns exactly 0 or -1, with 0 meaning the VALID bit
was set (data valid); neorv32_trng_check_sim_mode returns exactly 0 or
-1, with -1 meaning the SIM_MODE bit is set (simulation mode). -/
theorem C10_return_encodings (soc ctrl data : Nat) :
    ((neorv32_trng_available soc).1 = 0 ∨ (neorv32_trng_available soc).1 = 1) ∧
    ((neorv32_trng_available soc).1 = 1 ↔ soc.testBit SYSINFO_SOC_IO_TRNG) ∧
    ((neorv32_trng_get ctrl data).1 = 0 ∨ (neorv32_trng_get ctrl data).1 = -1) ∧
    ((neorv32_trng_get ctrl data).1 = 0 ↔ ctrl.testBit TRNG_CTRL_VALID) ∧
    ((neorv32_trng_check_sim_mode ctrl).1 = 0 ∨
      (neorv32_trng_check_sim_mode ctrl).1 = -1) ∧
    ((neorv32_trng_check_sim_mode ctrl).1 = -1 ↔
      ctrl.testBit TRNG_CTRL_SIM_MODE) := by
  have ha := and_one_shiftLeft_ne_zero soc SYSINFO_SOC_IO_TRNG
  have hv := and_one_shiftLeft_ne_zero ctrl TRNG_CTRL_VALID
  have hs := and_one_shiftLeft_ne_zero ctrl TRNG_CTRL_SIM_MODE
  refine ⟨?_, ?_, ?_, ?_, ?_, ?_⟩
  · by_cases h : soc &&& (1 <<< SYSINFO_SOC_IO_TRNG) ≠ 0 <;>
      simp [neorv32_trng_available, h]
  · by_cases h : soc &&& (1 <<< SYSINFO_SOC_IO_TRNG) ≠ 0
    · simp [neorv32_trng_available, h, ha.mp h]
    · have : ¬ soc.testBit SYSINFO_SOC_IO_TRNG := fun hc => h (ha.mpr hc)
      simp [neorv32_trng_available, h, this]
  · by_cases h : ctrl &&& (1 <<< TRNG_CTRL_VALID) ≠ 0 <;>
      simp [neorv32_trng_get, h]
  · by_cases h : ctrl &&& (1 <<< TRNG_CTRL_VALID) ≠ 0
    · simp [neorv32_trng_get, h, hv.mp h]
    · have : ¬ ctrl.testBit TRNG_CTRL_VALID := fun hc => h (hv.mpr hc)
      simp [neorv32_trng_get, h, this]
  · by_cases h : ctrl &&& (1 <<< TRNG_CTRL_SIM_MODE) ≠ 0 <;>
      simp [neorv32_trng_check_sim_mode, h]
  · by_cases h : ctrl &&& (1 <<< TRNG_CTRL_SIM_MODE) ≠ 0
    · simp [neorv32_trng_check_sim_mode, h, hs.mp h]
    · have : ¬ ctrl.testBit TRNG_CTRL_SIM_MODE := fun hc => h (hs.mpr hc)
      simp [neorv32_trng_check_sim_mode, h, this]
